import Mathlib

/-!
Verification of the image-converter core (src/src-tauri/src/lib.rs and
src/src-tauri/src/image_processor.rs) against its natural-language
specification.

The Rust source is shallowly embedded below.  Pure functions become Lean
functions; external collaborators (the libheif decoder, the `image` crate's
geometric operations and `resize`, the EXIF reader, the filesystem and the
Tauri progress sink) enter as explicit parameters or as decoded values,
modelled from their documented behaviour.  Machine integers are `Nat` with
an explicit wrap where u32 multiplication may overflow; `f64`/`f32`
arithmetic on byte estimates and resize ratios is modelled by exact rational
arithmetic followed by the truncating cast (`Int.floor`/`Nat` division),
which agrees with the source on every input considered here.  Fallible Rust
code returns `Except`/`Option`; a slice index that would panic is modelled
by a dedicated `crash` outcome, kept distinct from an error `Result`.
-/

/-! ## Size estimator (image_processor.rs, `estimate_size`) -/

/-- Embedding of `ImageProcessor::estimate_size`.  `pixel_count` is
`(width * height) as f64` where the `u32` product wraps (release-mode
semantics); the JPEG branch computes `0.5 + quality/100 * 2.5` bytes per
pixel, the PNG branch `3.5`, any other tag yields `0`.  The final `as u64`
cast truncates the non-negative real value, i.e. takes its floor. -/
def estimate_size (width height : Nat) (target_format : String) (quality : Nat) : Nat :=
  let pixel_count : ℚ := (((width * height) % 2 ^ 32 : Nat) : ℚ)
  if target_format = "jpeg" then
    let quality_factor : ℚ := (quality : ℚ) / 100
    let bytes_per_pixel : ℚ := 0.5 + quality_factor * 2.5
    (⌊pixel_count * bytes_per_pixel⌋).toNat
  else if target_format = "png" then
    (⌊pixel_count * 3.5⌋).toNat
  else 0

/-! ## Pixel buffers and the orientation normalizer
(image_processor.rs, `apply_exif_orientation`, `load_image`) -/

/-- A decoded pixel buffer: dimensions plus row-major rows of abstract
pixel values (the `DynamicImage` the pipeline passes between stages). -/
structure Img where
  width : Nat
  height : Nat
  rows : List (List Nat)
deriving DecidableEq

/-- Pixel lookup at column `x` of row `y` (0 outside the buffer). -/
def pixel (img : Img) (x y : Nat) : Nat :=
  ((img.rows[y]?.getD [])[x]?).getD 0

/-- Builds a `w × h` buffer whose pixel at `(x, y)` is `f x y`. -/
def mkImg (w h : Nat) (f : Nat → Nat → Nat) : Img :=
  ⟨w, h, (List.range h).map fun y => (List.range w).map fun x => f x y⟩

/-- Model of the image crate's `fliph` (mirror across the vertical axis). -/
def fliph (img : Img) : Img :=
  mkImg img.width img.height fun x y => pixel img (img.width - 1 - x) y

/-- Model of the image crate's `flipv` (mirror across the horizontal axis). -/
def flipv (img : Img) : Img :=
  mkImg img.width img.height fun x y => pixel img x (img.height - 1 - y)

/-- Model of the image crate's `rotate180`. -/
def rotate180 (img : Img) : Img :=
  mkImg img.width img.height fun x y =>
    pixel img (img.width - 1 - x) (img.height - 1 - y)

/-- Model of the image crate's `rotate90` (90 degrees clockwise: the
result is `height × width`, and result pixel `(x, y)` comes from source
pixel `(y, height - 1 - x)`). -/
def rotate90 (img : Img) : Img :=
  mkImg img.height img.width fun x y => pixel img y (img.height - 1 - x)

/-- Model of the image crate's `rotate270` (270 degrees clockwise). -/
def rotate270 (img : Img) : Img :=
  mkImg img.height img.width fun x y => pixel img (img.width - 1 - y) x

/-- Embedding of `ImageProcessor::apply_exif_orientation`'s transform
dispatch.  `orientation = none` covers every non-error fallback of the
source: unreadable/absent EXIF block, missing orientation tag, or a tag
whose `get_uint` fails — all of which return the buffer unchanged. -/
def apply_exif_orientation (orientation : Option Nat) (img : Img) : Img :=
  match orientation with
  | none => img
  | some o =>
    match o with
    | 1 => img
    | 2 => fliph img
    | 3 => rotate180 img
    | 4 => flipv img
    | 5 => fliph (rotate90 img)
    | 6 => rotate90 img
    | 7 => fliph (rotate270 img)
    | 8 => rotate270 img
    | _ => img

/-- Embedding of `ImageProcessor::load_image`.  `rawExt` is the path's
extension as extracted by `Path::extension` (before lowercasing);
`heicDecode` and `genericDecode` stand for `Self::load_heic(path)` and
`image::open(path)`, and `orientation` for the EXIF tag the normalizer
would read.  HEIC/HEIF inputs skip the orientation stage. -/
def load_image (rawExt : String) (heicDecode genericDecode : Except String Img)
    (orientation : Option Nat) : Except String Img :=
  let extension := rawExt.toLower
  if extension = "heic" ∨ extension = "heif" then heicDecode
  else genericDecode.map (apply_exif_orientation orientation)

/-! ## HEIC decoding and stride stripping
(image_processor.rs, `load_heic`, `load_heic_thumbnail`) -/

/-- A decoded libheif interleaved plane: reported dimensions, row stride
in bytes, and the raw plane bytes. -/
structure HeifPlane where
  width : Nat
  height : Nat
  stride : Nat
  data : List Nat
deriving DecidableEq

/-- Result of running a HEIC decode path: a pixel buffer with its
dimensions, a recoverable error (Rust `Err`), or a crash — the model's
marker for a Rust panic such as an out-of-bounds slice index. -/
inductive HeicResult where
  | ok (width height : Nat) (buf : List Nat)
  | err (msg : String)
  | crash
deriving DecidableEq

/-- Rust slice indexing `&data[a..b]`: `none` exactly when the range is
invalid or past the end, which panics in Rust. -/
def rustSlice (data : List Nat) (a b : Nat) : Option (List Nat) :=
  if a ≤ b ∧ b ≤ data.length then some ((data.take b).drop a) else none

/-- The row loop of `load_heic`: for `y` in `0..count`, append
`&data[y*stride .. y*stride + width*4]` to the buffer.  Any out-of-bounds
row aborts with `none` (the panic of the unchecked slice). -/
def packRows (width stride : Nat) (data : List Nat) : Nat → Option (List Nat)
  | 0 => some []
  | y + 1 =>
    match packRows width stride data y,
          rustSlice data (y * stride) (y * stride + width * 4) with
    | some buf, some row => some (buf ++ row)
    | _, _ => none

/-- Stride stripping in `load_heic`: copy the first `width*4` bytes of
each of the `height` rows of the plane into a tightly packed buffer. -/
def stripStride (width height stride : Nat) (data : List Nat) : Option (List Nat) :=
  packRows width stride data height

/-- Embedding of `ImageProcessor::load_heic` from the decoded interleaved
plane onward (container open, handle fetch, decode and plane-extraction
failures are upstream `Err` returns not modelled here; `primary` is the
plane libheif handed back).  The row loop indexes the plane without a
bounds check, so a plane shorter than its rows imply crashes; otherwise
`RgbaImage::from_raw` accepts any buffer of at least `width*height*4`
bytes. -/
def load_heic (primary : HeifPlane) : HeicResult :=
  match stripStride primary.width primary.height primary.stride primary.data with
  | none => .crash
  | some rgba_data =>
    if primary.width * primary.height * 4 ≤ rgba_data.length then
      .ok primary.width primary.height rgba_data
    else .err "Failed to create RGBA image from HEIC data"

/-- The guarded row loop of the thumbnail fast path: rows whose slice
would run past the end of the plane data are skipped instead of read. -/
def thumbRows (width stride : Nat) (data : List Nat) : Nat → List Nat
  | 0 => []
  | y + 1 =>
    thumbRows width stride data y ++
      (if y * stride + width * 4 ≤ data.length then
        (data.take (y * stride + width * 4)).drop (y * stride)
      else [])

/-- The embedded-thumbnail fast path of `load_heic_thumbnail`, from the
decoded first-thumbnail plane onward: assemble the guarded rows, then
`RgbaImage::from_raw` succeeds iff the buffer holds at least
`width*height*4` bytes. -/
def thumbFastPath (t : HeifPlane) : Option (Nat × Nat × List Nat) :=
  let rgba_data := thumbRows t.width t.stride t.data t.height
  if t.width * t.height * 4 ≤ rgba_data.length then
    some (t.width, t.height, rgba_data)
  else none

/-- The resize bounds computed in the fallback path:
`ratio = max_size / max(width, height)` and each dimension times the
ratio, truncated (`as u32`), here as exact rational floor = Nat division. -/
def resizeDims (w h max_size : Nat) : Nat × Nat :=
  let longest := max w h
  (w * max_size / longest, h * max_size / longest)

/-- The fallback tier of `load_heic_thumbnail`: full decode via
`load_heic`, then — only if a dimension exceeds `max_size` — a resize.
`resizeFit w h buf nw nh` models `img.resize(nw, nh, Triangle)`, an
external library call that fits the image within the given bounds. -/
def heicFallback (primary : HeifPlane) (max_size : Nat)
    (resizeFit : Nat → Nat → List Nat → Nat → Nat → Nat × Nat × List Nat) :
    HeicResult :=
  match load_heic primary with
  | .ok w h buf =>
    if max_size < w ∨ max_size < h then
      let dims := resizeDims w h max_size
      let resized := resizeFit w h buf dims.1 dims.2
      .ok resized.1 resized.2.1 resized.2.2
    else .ok w h buf
  | r => r

/-- Embedding of `ImageProcessor::load_heic_thumbnail`.  `thumbDecode` is
`some t` when the chain thumbnail-count > 0, id list non-empty,
`handle.thumbnail`, decode and interleaved-plane extraction all succeed
with plane `t`; any failure in that chain is `none` and falls through.
A successful fast path returns the thumbnail buffer as-is; otherwise the
fallback tier runs. -/
def load_heic_thumbnail (thumbDecode : Option HeifPlane) (primary : HeifPlane)
    (max_size : Nat)
    (resizeFit : Nat → Nat → List Nat → Nat → Nat → Nat × Nat × List Nat) :
    HeicResult :=
  match thumbDecode with
  | some t =>
    match thumbFastPath t with
    | some r => .ok r.1 r.2.1 r.2.2
    | none => heicFallback primary max_size resizeFit
  | none => heicFallback primary max_size resizeFit

/-! ## Conversion commands and the batch orchestrator (lib.rs) -/

/-- Mirror of the `ConversionSettings` struct. -/
structure ConversionSettings where
  target_format : String
  quality : Nat
  preserve_metadata : Bool
deriving DecidableEq

/-- Mirror of the `BatchConversionItem` struct. -/
structure BatchConversionItem where
  file_id : String
  path : String
  output_path : String
deriving DecidableEq

/-- Mirror of the `BatchConversionResult` struct. -/
structure BatchConversionResult where
  file_id : String
  success : Bool
  output_path : Option String
  error : Option String
deriving DecidableEq

/-- The two output formats the commands accept. -/
inductive OutFormat where
  | jpeg
  | png
deriving DecidableEq

/-- The `match settings.target_format.as_str()` appearing in both
`convert_image` and `convert_images_batch`. -/
def parseFormat (s : String) : Option OutFormat :=
  if s = "jpeg" then some .jpeg else if s = "png" then some .png else none

/-- Embedding of the `convert_image` command.  `load` stands for
`ImageProcessor::load_image`, `save` for `ImageProcessor::save_image`,
and `emit` for `app_handle.emit` on the progress sink; the source
discards the emit result with `.ok()`, which the `let _ :=` mirrors. -/
def convert_image {Pix : Type} (load : String → Except String Pix)
    (save : Pix → String → OutFormat → Nat → Except String Unit)
    (emit : String → Nat → Bool) (file_id path output_path : String)
    (settings : ConversionSettings) : Except String String :=
  match load path with
  | .error e => .error e
  | .ok img =>
    let _ := emit file_id 50
    match parseFormat settings.target_format with
    | none => .error "Unsupported format"
    | some format =>
      match save img output_path format settings.quality with
      | .error e => .error e
      | .ok _ =>
        let _ := emit file_id 100
        .ok output_path

/-- The per-item closure of `convert_images_batch`: load, emit 50%, save,
emit 100%, then wrap the `Result` into a `BatchConversionResult`. -/
def convertBatchItem {Pix : Type} (load : String → Except String Pix)
    (save : Pix → String → OutFormat → Nat → Except String Unit)
    (emit : String → Nat → Bool) (format : OutFormat) (quality : Nat)
    (item : BatchConversionItem) : BatchConversionResult :=
  let attempt : Except String String :=
    match load item.path with
    | .error e => .error e
    | .ok img =>
      let _ := emit item.file_id 50
      match save img item.output_path format quality with
      | .error e => .error e
      | .ok _ =>
        let _ := emit item.file_id 100
        .ok item.output_path
  match attempt with
  | .ok output_path => ⟨item.file_id, true, some output_path, none⟩
  | .error e => ⟨item.file_id, false, none, some e⟩

/-- One completion step of the parallel fan-out: worker finishing index
`j` writes its outcome into slot `j` of the pre-sized result vector. -/
def parStep {α β : Type} (f : α → β) (items : List α)
    (slots : List (Option β)) (j : Nat) : List (Option β) :=
  match items[j]? with
  | some a => slots.set j (some (f a))
  | none => slots

/-- Model of rayon's `par_iter().map(f).collect::<Vec<_>>()` on `items`:
an index-addressed result vector filled in an arbitrary completion order
`schedule` (rayon guarantees the collected vector is in input order, i.e.
behaves as this index-addressed collection for any completion order). -/
def parCollect {α β : Type} (f : α → β) (items : List α)
    (schedule : List Nat) : List (Option β) :=
  schedule.foldl (parStep f items) (List.replicate items.length none)

/-- Embedding of the `convert_images_batch` command: reject an
unsupported target format up front, otherwise run every item's closure
across the pool (completion order `schedule`) and collect the outcomes
in input order. -/
def convert_images_batch {Pix : Type} (load : String → Except String Pix)
    (save : Pix → String → OutFormat → Nat → Except String Unit)
    (emit : String → Nat → Bool) (items : List BatchConversionItem)
    (settings : ConversionSettings) (schedule : List Nat) :
    Except String (List BatchConversionResult) :=
  match parseFormat settings.target_format with
  | none => .error "Unsupported format"
  | some format =>
    .ok ((parCollect (convertBatchItem load save emit format settings.quality)
      items schedule).filterMap id)

/-! ## Lemmas about the index-addressed parallel collection -/

theorem parStep_length {α β : Type} (f : α → β) (items : List α)
    (slots : List (Option β)) (j : Nat) :
    (parStep f items slots j).length = slots.length := by
  unfold parStep
  cases items[j]? <;> simp

theorem parFold_length {α β : Type} (f : α → β) (items : List α)
    (schedule : List Nat) :
    ∀ slots : List (Option β),
      (schedule.foldl (parStep f items) slots).length = slots.length := by
  induction schedule with
  | nil => intro slots; rfl
  | cons k rest ih =>
    intro slots
    rw [List.foldl_cons, ih, parStep_length]

theorem parFold_getElem?_of_not_mem {α β : Type} (f : α → β) (items : List α)
    (schedule : List Nat) (j : Nat) (hnm : j ∉ schedule) :
    ∀ slots : List (Option β),
      (schedule.foldl (parStep f items) slots)[j]? = slots[j]? := by
  induction schedule with
  | nil => intro slots; rfl
  | cons k rest ih =>
    intro slots
    rw [List.mem_cons, not_or] at hnm
    rw [List.foldl_cons, ih hnm.2]
    unfold parStep
    cases items[k]? with
    | none => rfl
    | some a => exact List.getElem?_set_ne (Ne.symm hnm.1)

theorem parFold_getElem?_of_none {α β : Type} (f : α → β) (items : List α)
    (schedule : List Nat) (j : Nat) (hj : items[j]? = none) :
    ∀ slots : List (Option β),
      (schedule.foldl (parStep f items) slots)[j]? = slots[j]? := by
  induction schedule with
  | nil => intro slots; rfl
  | cons k rest ih =>
    intro slots
    rw [List.foldl_cons, ih]
    unfold parStep
    cases hk : items[k]? with
    | none => rfl
    | some a =>
      refine List.getElem?_set_ne (fun h : k = j => ?_)
      rw [h, hj] at hk
      exact Option.noConfusion hk

theorem parFold_getElem?_of_mem {α β : Type} (f : α → β) (items : List α)
    (schedule : List Nat) (j : Nat) (a : α) (ha : items[j]? = some a)
    (hmem : j ∈ schedule) :
    ∀ slots : List (Option β), j < slots.length →
      (schedule.foldl (parStep f items) slots)[j]? = some (some (f a)) := by
  induction schedule with
  | nil => exact absurd hmem (List.not_mem_nil j)
  | cons k rest ih =>
    intro slots hlen
    rw [List.foldl_cons]
    by_cases hjr : j ∈ rest
    · exact ih hjr _ (by rw [parStep_length]; exact hlen)
    · have hk : k = j := by
        rcases List.mem_cons.mp hmem with h | h
        · exact h.symm
        · exact absurd h hjr
      subst hk
      rw [parFold_getElem?_of_not_mem f items rest k hjr]
      unfold parStep
      rw [ha]
      simp [List.getElem?_set_self, hlen]

theorem parCollect_eq_map {α β : Type} (f : α → β) (items : List α)
    (schedule : List Nat) (hcov : ∀ j ∈ List.range items.length, j ∈ schedule) :
    parCollect f items schedule = items.map (fun a => some (f a)) := by
  apply List.ext_getElem?
  intro j
  by_cases hj : j < items.length
  · have ha : items[j]? = some items[j] := List.getElem?_eq_getElem hj
    rw [parCollect,
      parFold_getElem?_of_mem f items schedule j _ ha
        (hcov j (List.mem_range.mpr hj)) _ (by simp [hj]),
      List.getElem?_map, ha]
    rfl
  · have hlen : items.length ≤ j := Nat.le_of_not_lt hj
    rw [parCollect, List.getElem?_eq_none, List.getElem?_eq_none]
    · simpa using hlen
    · rw [parFold_length]
      simpa using hlen

theorem filterMap_id_map_some {β : Type} (l : List β) :
    (l.map some).filterMap id = l := by
  simp

/-- Shared helper: with a supported format and a completion schedule that
reaches every index, the batch command returns exactly the per-item
outcomes in input order. -/
theorem convert_images_batch_eq_map {Pix : Type} (load : String → Except String Pix)
    (save : Pix → String → OutFormat → Nat → Except String Unit)
    (emit : String → Nat → Bool) (items : List BatchConversionItem)
    (settings : ConversionSettings) (schedule : List Nat) (format : OutFormat)
    (hfmt : parseFormat settings.target_format = some format)
    (hcov : ∀ j ∈ List.range items.length, j ∈ schedule) :
    convert_images_batch load save emit items settings schedule =
      .ok (items.map (convertBatchItem load save emit format settings.quality)) := by
  simp only [convert_images_batch, hfmt]
  rw [parCollect_eq_map _ _ _ hcov]
  have : items.map
      (fun a => some (convertBatchItem load save emit format settings.quality a)) =
      (items.map (convertBatchItem load save emit format settings.quality)).map some := by
    rw [List.map_map]
    rfl
  rw [this, filterMap_id_map_some]

theorem convertBatchItem_file_id {Pix : Type} (load : String → Except String Pix)
    (save : Pix → String → OutFormat → Nat → Except String Unit)
    (emit : String → Nat → Bool) (format : OutFormat) (quality : Nat)
    (item : BatchConversionItem) :
    (convertBatchItem load save emit format quality item).file_id = item.file_id := by
  unfold convertBatchItem
  cases hl : load item.path with
  | error e => rfl
  | ok img => cases hs : save img item.output_path format quality with
    | error e => simp [hs]
    | ok u => simp [hs]

theorem convertBatchItem_shape {Pix : Type} (load : String → Except String Pix)
    (save : Pix → String → OutFormat → Nat → Except String Unit)
    (emit : String → Nat → Bool) (format : OutFormat) (quality : Nat)
    (item : BatchConversionItem) :
    ((convertBatchItem load save emit format quality item).success = true ∧
      (convertBatchItem load save emit format quality item).output_path =
        some item.output_path ∧
      (convertBatchItem load save emit format quality item).error = none) ∨
    ((convertBatchItem load save emit format quality item).success = false ∧
      (convertBatchItem load save emit format quality item).output_path = none ∧
      ∃ e, (convertBatchItem load save emit format quality item).error = some e) := by
  unfold convertBatchItem
  cases hl : load item.path with
  | error e => right; exact ⟨rfl, rfl, e, rfl⟩
  | ok img =>
    cases hs : save img item.output_path format quality with
    | error e => right; simp [hs]
    | ok u => left; simp [hs]

/-- C1: with a supported target format, the batch command returns one
outcome slot per submitted job, in submission order — `results[i]`
belongs to `items[i]` (equal `file_id`) — and the returned list is the
same for every completion order that finishes every job. -/
theorem convert_images_batch_preserves_order {Pix : Type}
    (load : String → Except String Pix)
    (save : Pix → String → OutFormat → Nat → Except String Unit)
    (emit : String → Nat → Bool) (items : List BatchConversionItem)
    (settings : ConversionSettings) (schedule : List Nat) (format : OutFormat)
    (hfmt : parseFormat settings.target_format = some format)
    (hcov : ∀ j ∈ List.range items.length, j ∈ schedule) :
    ∃ results,
      convert_images_batch load save emit items settings schedule = .ok results ∧
      results.length = items.length ∧
      (∀ i : Nat, results[i]?.map BatchConversionResult.file_id =
        items[i]?.map BatchConversionItem.file_id) ∧
      ∀ schedule2 : List Nat, (∀ j ∈ List.range items.length, j ∈ schedule2) →
        convert_images_batch load save emit items settings schedule2 = .ok results := by
  refine ⟨items.map (convertBatchItem load save emit format settings.quality),
    convert_images_batch_eq_map load save emit items settings schedule format hfmt hcov,
    by simp, ?_,
    fun schedule2 hcov2 =>
      convert_images_batch_eq_map load save emit items settings schedule2 format
        hfmt hcov2⟩
  intro i
  rw [List.getElem?_map]
  cases hi : items[i]? with
  | none => rfl
  | some it => simp [convertBatchItem_file_id]

/-- C1 witness: a three-job batch with completion order reversed still
collects outcomes in submission order. -/
theorem convert_images_batch_preserves_order_witness :
    ∃ results,
      convert_images_batch (fun p => if p = "b" then Except.error "No such file"
          else Except.ok ())
        (fun _ _ _ _ => Except.ok ()) (fun _ _ => true)
        [⟨"A", "a", "out_a"⟩, ⟨"B", "b", "out_b"⟩, ⟨"C", "c", "out_c"⟩]
        ⟨"jpeg", 80, false⟩ [2, 1, 0] = .ok results ∧
      results.length =
        ([⟨"A", "a", "out_a"⟩, ⟨"B", "b", "out_b"⟩,
          ⟨"C", "c", "out_c"⟩] : List BatchConversionItem).length ∧
      (∀ i : Nat, results[i]?.map BatchConversionResult.file_id =
        (([⟨"A", "a", "out_a"⟩, ⟨"B", "b", "out_b"⟩,
          ⟨"C", "c", "out_c"⟩] : List BatchConversionItem)[i]?).map
            BatchConversionItem.file_id) ∧
      ∀ schedule2 : List Nat,
        (∀ j ∈ List.range ([⟨"A", "a", "out_a"⟩, ⟨"B", "b", "out_b"⟩,
            ⟨"C", "c", "out_c"⟩] : List BatchConversionItem).length,
          j ∈ schedule2) →
        convert_images_batch (fun p => if p = "b" then Except.error "No such file"
            else Except.ok ())
          (fun _ _ _ _ => Except.ok ()) (fun _ _ => true)
          [⟨"A", "a", "out_a"⟩, ⟨"B", "b", "out_b"⟩, ⟨"C", "c", "out_c"⟩]
          ⟨"jpeg", 80, false⟩ schedule2 = .ok results :=
  convert_images_batch_preserves_order
    (fun p => if p = "b" then Except.error "No such file" else Except.ok ())
    (fun _ _ _ _ => Except.ok ()) (fun _ _ => true)
    [⟨"A", "a", "out_a"⟩, ⟨"B", "b", "out_b"⟩, ⟨"C", "c", "out_c"⟩]
    ⟨"jpeg", 80, false⟩ [2, 1, 0] OutFormat.jpeg rfl (by decide)

/-- C2: with a supported target format, every job yields exactly one
outcome — slot `i` of the result list is exactly the outcome of running
job `i` alone, so no job's failure touches another's — and each outcome
is either a success carrying an output path and no error, or a failure
carrying an error and no output path. -/
theorem convert_images_batch_outcomes {Pix : Type}
    (load : String → Except String Pix)
    (save : Pix → String → OutFormat → Nat → Except String Unit)
    (emit : String → Nat → Bool) (items : List BatchConversionItem)
    (settings : ConversionSettings) (schedule : List Nat) (format : OutFormat)
    (hfmt : parseFormat settings.target_format = some format)
    (hcov : ∀ j ∈ List.range items.length, j ∈ schedule) :
    ∃ results,
      convert_images_batch load save emit items settings schedule = .ok results ∧
      results.length = items.length ∧
      (∀ i : Nat, results[i]? = (items[i]?).map
        (convertBatchItem load save emit format settings.quality)) ∧
      ∀ r ∈ results,
        (r.success = true ∧ (∃ p, r.output_path = some p) ∧ r.error = none) ∨
        (r.success = false ∧ r.output_path = none ∧ ∃ e, r.error = some e) := by
  refine ⟨items.map (convertBatchItem load save emit format settings.quality),
    convert_images_batch_eq_map load save emit items settings schedule format hfmt hcov,
    by simp, fun i => List.getElem?_map _ _ _, ?_⟩
  intro r hr
  obtain ⟨item, _, rfl⟩ := List.mem_map.mp hr
  rcases convertBatchItem_shape load save emit format settings.quality item with
    ⟨h1, h2, h3⟩ | ⟨h1, h2, h3⟩
  · exact Or.inl ⟨h1, ⟨item.output_path, h2⟩, h3⟩
  · exact Or.inr ⟨h1, h2, h3⟩

/-- C2 witness: the spec's batch-isolation scenario — three jobs where
the middle job's input path is unreadable. -/
theorem convert_images_batch_outcomes_witness :
    ∃ results,
      convert_images_batch (fun p => if p = "mid" then Except.error "No such file"
          else Except.ok ())
        (fun _ _ _ _ => Except.ok ()) (fun _ _ => false)
        [⟨"j1", "one", "o1"⟩, ⟨"j2", "mid", "o2"⟩, ⟨"j3", "three", "o3"⟩]
        ⟨"png", 0, true⟩ [1, 0, 2] = .ok results ∧
      results.length =
        ([⟨"j1", "one", "o1"⟩, ⟨"j2", "mid", "o2"⟩,
          ⟨"j3", "three", "o3"⟩] : List BatchConversionItem).length ∧
      (∀ i : Nat, results[i]? =
        ((([⟨"j1", "one", "o1"⟩, ⟨"j2", "mid", "o2"⟩,
          ⟨"j3", "three", "o3"⟩] : List BatchConversionItem))[i]?).map
          (convertBatchItem (fun p => if p = "mid" then Except.error "No such file"
              else Except.ok ())
            (fun _ _ _ _ => Except.ok ()) (fun _ _ => false) OutFormat.png 0)) ∧
      ∀ r ∈ results,
        (r.success = true ∧ (∃ p, r.output_path = some p) ∧ r.error = none) ∨
        (r.success = false ∧ r.output_path = none ∧ ∃ e, r.error = some e) :=
  convert_images_batch_outcomes
    (fun p => if p = "mid" then Except.error "No such file" else Except.ok ())
    (fun _ _ _ _ => Except.ok ()) (fun _ _ => false)
    [⟨"j1", "one", "o1"⟩, ⟨"j2", "mid", "o2"⟩, ⟨"j3", "three", "o3"⟩]
    ⟨"png", 0, true⟩ [1, 0, 2] OutFormat.png rfl (by decide)

/-- C8: the conversion outcome never depends on whether progress
notifications reach the sink — swapping the sink function changes
neither `convert_image` nor a batch item's result — and in particular a
job whose decode and encode succeed reports success even when every
emission fails. -/
theorem progress_emit_no_effect_on_outcome {Pix : Type}
    (load : String → Except String Pix)
    (save : Pix → String → OutFormat → Nat → Except String Unit)
    (file_id path output_path : String) (settings : ConversionSettings)
    (format : OutFormat) (quality : Nat) (item : BatchConversionItem) :
    (∀ emitA emitB : String → Nat → Bool,
      convert_image load save emitA file_id path output_path settings =
        convert_image load save emitB file_id path output_path settings) ∧
    (∀ emitA emitB : String → Nat → Bool,
      convertBatchItem load save emitA format quality item =
        convertBatchItem load save emitB format quality item) ∧
    (∀ img : Pix, load path = .ok img →
      parseFormat settings.target_format = some format →
      save img output_path format settings.quality = .ok () →
      convert_image load save (fun _ _ => false) file_id path output_path settings =
        .ok output_path) := by
  refine ⟨fun _ _ => rfl, fun _ _ => rfl, fun img hload hfmt hsave => ?_⟩
  simp only [convert_image, hload, hfmt, hsave]

/-- C8 witness: a job with a failing sink on both checkpoints still
succeeds when decode and encode succeed. -/
theorem progress_emit_no_effect_on_outcome_witness :
    convert_image (fun _ => Except.ok ()) (fun _ _ _ _ => Except.ok ())
      (fun _ _ => false) "f1" "in.png" "out.jpg" ⟨"jpeg", 80, false⟩ =
      .ok "out.jpg" :=
  (progress_emit_no_effect_on_outcome (fun _ => Except.ok ())
    (fun _ _ _ _ => Except.ok ()) "f1" "in.png" "out.jpg" ⟨"jpeg", 80, false⟩
    OutFormat.jpeg 80 ⟨"f1", "in.png", "out.jpg"⟩).2.2 () rfl rfl rfl

theorem rustSlice_eq_some {data : List Nat} {a b : Nat} {row : List Nat}
    (h : rustSlice data a b = some row) :
    a ≤ b ∧ b ≤ data.length ∧ row = (data.take b).drop a := by
  unfold rustSlice at h
  split at h
  · next hc =>
    injection h with h
    exact ⟨hc.1, hc.2, h.symm⟩
  · exact absurd h (by simp)

theorem packRows_spec (w s : Nat) (d : List Nat) :
    ∀ (h : Nat) (buf : List Nat), packRows w s d h = some buf →
      buf = ((List.range h).map
        (fun y => (d.take (y * s + w * 4)).drop (y * s))).flatten ∧
      buf.length = h * (w * 4) := by
  intro h
  induction h with
  | zero =>
    intro buf hb
    simp only [packRows] at hb
    injection hb with hb
    subst hb
    simp
  | succ y ih =>
    intro buf hb
    unfold packRows at hb
    cases hp : packRows w s d y with
    | none => rw [hp] at hb; exact absurd hb (by simp)
    | some buf0 =>
      cases hr : rustSlice d (y * s) (y * s + w * 4) with
      | none => rw [hp, hr] at hb; exact absurd hb (by simp)
      | some row =>
        rw [hp, hr] at hb
        injection hb with hb
        subst hb
        obtain ⟨hjoin, hlen⟩ := ih buf0 hp
        obtain ⟨ha, hbl, hrow⟩ := rustSlice_eq_some hr
        have hrowlen : row.length = w * 4 := by
          rw [hrow, List.length_drop, List.length_take]
          omega
        constructor
        · rw [List.range_succ, List.map_append, List.flatten_append, hjoin, hrow]
          simp
        · rw [List.length_append, hlen, hrowlen]
          ring

/-- C6: when the `load_heic` stride-stripping loop completes on a plane
with `stride ≥ width*4`, the packed buffer is byte-exact: its length is
exactly `width*height*4` and it is precisely the concatenation, row by
row, of bytes `[y*stride, y*stride + width*4)` of the plane data — so no
trailing padding byte of any row is carried over. -/
theorem stripStride_exact (width height stride : Nat) (data buf : List Nat)
    (hstride : width * 4 ≤ stride)
    (hrun : stripStride width height stride data = some buf) :
    buf.length = width * height * 4 ∧
    buf = ((List.range height).map
      (fun y => (data.take (y * stride + width * 4)).drop (y * stride))).flatten := by
  obtain ⟨hjoin, hlen⟩ := packRows_spec width stride data height buf hrun
  refine ⟨?_, hjoin⟩
  rw [hlen]
  ring

/-- C6 witness: a 1×2 plane with stride 8 over the bytes 0..15 packs to
exactly the eight bytes 0,1,2,3,8,9,10,11 — padding bytes 4..7 and
12..15 are dropped. -/
theorem stripStride_exact_witness :
    (1 * 4 ≤ 8 ∧ stripStride 1 2 8 (List.range 16) = some [0, 1, 2, 3, 8, 9, 10, 11]) ∧
    ([0, 1, 2, 3, 8, 9, 10, 11] : List Nat).length = 1 * 2 * 4 ∧
    ([0, 1, 2, 3, 8, 9, 10, 11] : List Nat) = ((List.range 2).map
      (fun y => ((List.range 16).take (y * 8 + 1 * 4)).drop (y * 8))).flatten :=
  ⟨⟨by decide, by decide⟩,
    stripStride_exact 1 2 8 (List.range 16) [0, 1, 2, 3, 8, 9, 10, 11]
      (by decide) (by decide)⟩

/-- C5 (code bug): on a decoded plane whose data is shorter than its
rows imply (width 1, height 2, stride 8, but only 10 bytes of data, so
row 1 needs bytes 8..12), the unchecked slice `&data[8..12]` in
`load_heic` is out of bounds: the function crashes (Rust panic) instead
of surfacing a `DecodeError` fatal to that job only.  The sibling
thumbnail loop guards exactly this case, so the spec states the intent. -/
theorem load_heic_short_plane_crash :
    load_heic ⟨1, 2, 8, List.replicate 10 0⟩ = .crash ∧
    stripStride 1 2 8 (List.replicate 10 0) = none := by decide

theorem thumbRows_length_le (w s : Nat) (d : List Nat) :
    ∀ h : Nat, (thumbRows w s d h).length ≤ h * (w * 4) := by
  intro h
  induction h with
  | zero => simp [thumbRows]
  | succ y ih =>
    unfold thumbRows
    rw [List.length_append]
    have hrow : (if y * s + w * 4 ≤ d.length then
        (d.take (y * s + w * 4)).drop (y * s) else []).length ≤ w * 4 := by
      split
      · rw [List.length_drop, List.length_take]; omega
      · simp
    have hstep : (y + 1) * (w * 4) = y * (w * 4) + w * 4 := by ring
    omega

theorem thumbRows_length_lt (w s : Nat) (d : List Nat) (hw : 0 < w) :
    ∀ h : Nat, (∃ y, y < h ∧ d.length < y * s + w * 4) →
      (thumbRows w s d h).length < h * (w * 4) := by
  intro h
  induction h with
  | zero => rintro ⟨y, hy, _⟩; omega
  | succ m ih =>
    rintro ⟨y, hy, hd⟩
    unfold thumbRows
    rw [List.length_append]
    have hstep : (m + 1) * (w * 4) = m * (w * 4) + w * 4 := by ring
    by_cases hym : y = m
    · subst hym
      rw [if_neg (by omega)]
      have := thumbRows_length_le w s d y
      simp only [List.length_nil]
      omega
    · have hlt := ih ⟨y, by omega, hd⟩
      have hrow : (if m * s + w * 4 ≤ d.length then
          (d.take (m * s + w * 4)).drop (m * s) else []).length ≤ w * 4 := by
        split
        · rw [List.length_drop, List.length_take]; omega
        · simp
      omega

/-- C9 (amended): the fast path returns a buffer only when the assembled
data is exactly `width*height*4` bytes; when the thumbnail width is
nonzero and some row would run past the end of the plane data, that row
is skipped, the `from_raw` length check fails, and the function falls
through to the fallback exactly as if no thumbnail existed.  (For a
zero-width thumbnail the empty buffer passes the check even with skipped
rows, so the nonzero-width proviso is necessary.) -/
theorem thumbFastPath_exactness (t : HeifPlane) :
    (∀ (w h : Nat) (buf : List Nat), thumbFastPath t = some (w, h, buf) →
      w = t.width ∧ h = t.height ∧ buf.length = t.width * t.height * 4) ∧
    (0 < t.width →
      (∃ y, y < t.height ∧ t.data.length < y * t.stride + t.width * 4) →
      thumbFastPath t = none) ∧
    (∀ (primary : HeifPlane) (max_size : Nat)
        (resizeFit : Nat → Nat → List Nat → Nat → Nat → Nat × Nat × List Nat),
      thumbFastPath t = none →
      load_heic_thumbnail (some t) primary max_size resizeFit =
        load_heic_thumbnail none primary max_size resizeFit) := by
  have hcast : t.width * t.height * 4 = t.height * (t.width * 4) := by ring
  refine ⟨?_, ?_, ?_⟩
  · intro w h buf hsome
    simp only [thumbFastPath] at hsome
    split at hsome
    · next hge =>
      injection hsome with hsome
      obtain ⟨hw, hh, hbuf⟩ : t.width = w ∧ t.height = h ∧
          thumbRows t.width t.stride t.data t.height = buf := by
        simpa [Prod.ext_iff] using hsome
      have hle := thumbRows_length_le t.width t.stride t.data t.height
      refine ⟨hw.symm, hh.symm, ?_⟩
      rw [← hbuf]
      omega
    · exact absurd hsome (by simp)
  · intro hw hex
    have hlt := thumbRows_length_lt t.width t.stride t.data hw t.height hex
    simp only [thumbFastPath]
    rw [if_neg (by omega)]
  · intro primary max_size resizeFit hnone
    simp [load_heic_thumbnail, hnone]

/-- C9 counterexample: on a zero-width, two-row thumbnail plane with
only 4 bytes of data, row 1 lies past the end of the plane data (the
source's own bounds test fails and skips it), yet buffer construction
succeeds and the fast path returns a buffer instead of falling through. -/
theorem thumbFastPath_zero_width_cex :
    thumbFastPath ⟨0, 2, 8, List.replicate 4 5⟩ = some (0, 2, []) ∧
    (List.replicate 4 (5 : Nat)).length < 1 * 8 + 0 * 4 ∧ 1 < 2 := by decide

/-- C9 witness: the short plane of width 1 makes the fast path fall
through with `none` rather than return a partial buffer. -/
theorem thumbFastPath_exactness_witness :
    thumbFastPath ⟨1, 2, 8, List.replicate 10 0⟩ = none :=
  (thumbFastPath_exactness ⟨1, 2, 8, List.replicate 10 0⟩).2.1 (by decide)
    ⟨1, by decide, by decide⟩

theorem resizeDims_le (w h m : Nat) (hpos : 0 < max w h) :
    (resizeDims w h m).1 ≤ m ∧ (resizeDims w h m).2 ≤ m := by
  unfold resizeDims
  constructor
  · calc w * m / max w h ≤ max w h * m / max w h :=
      Nat.div_le_div_right (Nat.mul_le_mul_right m (Nat.le_max_left w h))
    _ = m := by rw [Nat.mul_comm]; exact Nat.mul_div_cancel m hpos
  · calc h * m / max w h ≤ max w h * m / max w h :=
      Nat.div_le_div_right (Nat.mul_le_mul_right m (Nat.le_max_right w h))
    _ = m := by rw [Nat.mul_comm]; exact Nat.mul_div_cancel m hpos

/-- C3 (amended): whenever `load_heic_thumbnail` answers from the
full-decode-then-resize fallback tier (no embedded thumbnail, or the
fast path fell through), the returned image's longer side is at most
`max_size`; the hypothesis on `resizeFit` is the image crate's
documented contract that `resize` fits the image within the requested
bounds.  The embedded-thumbnail fast path carries no such cap — see the
counterexample. -/
theorem load_heic_thumbnail_fallback_capped (thumbDecode : Option HeifPlane)
    (primary : HeifPlane) (max_size : Nat)
    (resizeFit : Nat → Nat → List Nat → Nat → Nat → Nat × Nat × List Nat)
    (hfit : ∀ (w h : Nat) (buf : List Nat) (nw nh : Nat),
      (resizeFit w h buf nw nh).1 ≤ nw ∧ (resizeFit w h buf nw nh).2.1 ≤ nh)
    (hfall : ∀ t, thumbDecode = some t → thumbFastPath t = none)
    (w h : Nat) (buf : List Nat)
    (hres : load_heic_thumbnail thumbDecode primary max_size resizeFit =
      .ok w h buf) :
    max w h ≤ max_size := by
  have hfb : heicFallback primary max_size resizeFit = .ok w h buf := by
    cases td : thumbDecode with
    | none =>
      rw [td] at hres
      simpa [load_heic_thumbnail] using hres
    | some t =>
      rw [td] at hres
      simpa [load_heic_thumbnail, hfall t td] using hres
  simp only [heicFallback] at hfb
  cases hlh : load_heic primary with
  | ok w0 h0 buf0 =>
    simp only [hlh] at hfb
    split at hfb
    · next hbig =>
      injection hfb with h1 h2 h3
      have hpos : 0 < max w0 h0 := by
        rcases hbig with hb | hb
        · exact Nat.lt_of_lt_of_le (by omega) (Nat.le_max_left w0 h0)
        · exact Nat.lt_of_lt_of_le (by omega) (Nat.le_max_right w0 h0)
      have hdims := resizeDims_le w0 h0 max_size hpos
      have hf := hfit w0 h0 buf0 (resizeDims w0 h0 max_size).1
        (resizeDims w0 h0 max_size).2
      rw [← h1, ← h2]
      have := hf.1
      have := hf.2
      omega
    · next hsmall =>
      injection hfb with h1 h2 h3
      rw [← h1, ← h2]
      omega
  | err m =>
    simp only [hlh] at hfb
    exact absurd hfb (by simp)
  | crash =>
    simp only [hlh] at hfb
    exact absurd hfb (by simp)

/-- C3 counterexample: an embedded thumbnail decoded at 4×1 is returned
by the fast path as-is even though `max_size` is 2 — the fast path never
consults `max_size`, so the longer side exceeds it. -/
theorem load_heic_thumbnail_fast_path_uncapped_cex :
    load_heic_thumbnail (some ⟨4, 1, 16, List.range 16⟩) ⟨1, 1, 4, List.range 4⟩ 2
      (fun _ _ _ nw nh => (nw, nh, [])) = .ok 4 1 (List.range 16) ∧
    ¬ (max 4 1 ≤ 2) := by decide

/-- C3 witness: with no embedded thumbnail, a 4×1 primary image at
`max_size` 2 comes back from the fallback capped to longer side 2. -/
theorem load_heic_thumbnail_fallback_capped_witness :
    load_heic_thumbnail none ⟨4, 1, 16, List.range 16⟩ 2
      (fun _ _ _ nw nh => (nw, nh, [])) = .ok 2 0 [] ∧ max 2 0 ≤ 2 :=
  ⟨by decide,
    load_heic_thumbnail_fallback_capped none ⟨4, 1, 16, List.range 16⟩ 2
      (fun _ _ _ nw nh => (nw, nh, []))
      (fun _ _ _ _ _ => ⟨Nat.le_refl _, Nat.le_refl _⟩)
      (fun t ht => Option.noConfusion ht) 2 0 [] (by decide)⟩

/-- C4 (amended): the JPEG estimate is monotone — `q1 < q2` in `[0,100]`
gives `estimate_size w h "jpeg" q1 ≤ estimate_size w h "jpeg" q2` — and
an unknown format tag estimates 0.  Strictness fails in general: the
`as u64` truncation collapses adjacent qualities on small pixel counts
(see the counterexample). -/
theorem estimate_size_monotone_and_unknown_zero (width height q1 q2 q : Nat)
    (s : String) (h1 : q1 < q2) (h2 : q2 ≤ 100)
    (hs1 : s ≠ "jpeg") (hs2 : s ≠ "png") :
    estimate_size width height "jpeg" q1 ≤ estimate_size width height "jpeg" q2 ∧
    estimate_size width height s q = 0 := by
  constructor
  · simp only [estimate_size, if_pos rfl]
    apply Int.toNat_le_toNat
    apply Int.floor_le_floor
    have hp : (0 : ℚ) ≤ (((width * height) % 2 ^ 32 : Nat) : ℚ) := Nat.cast_nonneg _
    apply mul_le_mul_of_nonneg_left _ hp
    have hq : (q1 : ℚ) ≤ (q2 : ℚ) := by exact_mod_cast Nat.le_of_lt h1
    have : (q1 : ℚ) / 100 * 2.5 ≤ (q2 : ℚ) / 100 * 2.5 := by
      apply mul_le_mul_of_nonneg_right _ (by norm_num)
      exact div_le_div_of_nonneg_right hq (by norm_num)
    linarith
  · simp [estimate_size, hs1, hs2]

/-- C4 counterexample: at one pixel, qualities 0 and 1 both estimate to
0 bytes (0.5 and 0.525 truncate to 0), refuting strict monotonicity. -/
theorem estimate_size_strict_mono_cex :
    0 < 1 ∧ (1 : Nat) ≤ 100 ∧
    ¬ (estimate_size 1 1 "jpeg" 0 < estimate_size 1 1 "jpeg" 1) := by
  have h0 : estimate_size 1 1 "jpeg" 0 = 0 := by
    simp only [estimate_size, if_pos rfl]
    norm_num
  have h1 : estimate_size 1 1 "jpeg" 1 = 0 := by
    simp only [estimate_size, if_pos rfl]
    norm_num
  exact ⟨Nat.zero_lt_one, by norm_num, by omega⟩

/-- C4 witness: quality 10 versus 90 on a 1920×1080 image, and an
unknown tag estimating 0. -/
theorem estimate_size_monotone_and_unknown_zero_witness :
    estimate_size 1920 1080 "jpeg" 10 ≤ estimate_size 1920 1080 "jpeg" 90 ∧
    estimate_size 1920 1080 "webp" 10 = 0 :=
  estimate_size_monotone_and_unknown_zero 1920 1080 10 90 10 "webp"
    (by norm_num) (by norm_num) (by decide) (by decide)

/-- C10: the estimator's format match is exact and case-sensitive — any
tag other than precisely "jpeg" or "png" estimates 0. -/
theorem estimate_size_case_sensitive (width height quality : Nat) (s : String)
    (hs1 : s ≠ "jpeg") (hs2 : s ≠ "png") :
    estimate_size width height s quality = 0 := by
  simp [estimate_size, hs1, hs2]

/-- C10 witness: uppercase, capitalized, abbreviated and padded
variants of "jpeg" all estimate 0. -/
theorem estimate_size_case_sensitive_witness :
    estimate_size 4000 3000 "JPEG" 80 = 0 ∧
    estimate_size 4000 3000 "Jpeg" 80 = 0 ∧
    estimate_size 4000 3000 "jpg" 80 = 0 ∧
    estimate_size 4000 3000 " jpeg" 80 = 0 :=
  ⟨estimate_size_case_sensitive 4000 3000 80 "JPEG" (by decide) (by decide),
    estimate_size_case_sensitive 4000 3000 80 "Jpeg" (by decide) (by decide),
    estimate_size_case_sensitive 4000 3000 80 "jpg" (by decide) (by decide),
    estimate_size_case_sensitive 4000 3000 80 " jpeg" (by decide) (by decide)⟩

theorem pixel_mkImg (w h : Nat) (f : Nat → Nat → Nat) (x y : Nat)
    (hx : x < w) (hy : y < h) : pixel (mkImg w h f) x y = f x y := by
  simp [pixel, mkImg, List.getElem?_map, List.getElem?_range, hx, hy]

/-- C7: the orientation normalizer realizes exactly the documented
mapping, stated geometrically on pixels — 1 identity; 2 horizontal flip;
3 rotation by 180; 4 vertical flip; 5 rotate 90 clockwise then flip
horizontally (net effect: transpose); 6 rotate 90 clockwise; 7 rotate
270 clockwise then flip horizontally (net effect: anti-transpose);
8 rotate 270 clockwise; any other tag value identity — a missing EXIF
block or tag (`none`) leaves the buffer unchanged without error, and
`load_image` skips the stage entirely for HEIC/HEIF extensions while
applying it after every generic decode. -/
theorem apply_exif_orientation_spec (img : Img) :
    (apply_exif_orientation none img = img) ∧
    (apply_exif_orientation (some 1) img = img) ∧
    ((apply_exif_orientation (some 2) img).width = img.width ∧
      (apply_exif_orientation (some 2) img).height = img.height ∧
      ∀ x y : Nat, x < img.width → y < img.height →
        pixel (apply_exif_orientation (some 2) img) x y =
          pixel img (img.width - 1 - x) y) ∧
    ((apply_exif_orientation (some 3) img).width = img.width ∧
      (apply_exif_orientation (some 3) img).height = img.height ∧
      ∀ x y : Nat, x < img.width → y < img.height →
        pixel (apply_exif_orientation (some 3) img) x y =
          pixel img (img.width - 1 - x) (img.height - 1 - y)) ∧
    ((apply_exif_orientation (some 4) img).width = img.width ∧
      (apply_exif_orientation (some 4) img).height = img.height ∧
      ∀ x y : Nat, x < img.width → y < img.height →
        pixel (apply_exif_orientation (some 4) img) x y =
          pixel img x (img.height - 1 - y)) ∧
    ((apply_exif_orientation (some 5) img).width = img.height ∧
      (apply_exif_orientation (some 5) img).height = img.width ∧
      ∀ x y : Nat, x < img.height → y < img.width →
        pixel (apply_exif_orientation (some 5) img) x y = pixel img y x) ∧
    ((apply_exif_orientation (some 6) img).width = img.height ∧
      (apply_exif_orientation (some 6) img).height = img.width ∧
      ∀ x y : Nat, x < img.height → y < img.width →
        pixel (apply_exif_orientation (some 6) img) x y =
          pixel img y (img.height - 1 - x)) ∧
    ((apply_exif_orientation (some 7) img).width = img.height ∧
      (apply_exif_orientation (some 7) img).height = img.width ∧
      ∀ x y : Nat, x < img.height → y < img.width →
        pixel (apply_exif_orientation (some 7) img) x y =
          pixel img (img.width - 1 - y) (img.height - 1 - x)) ∧
    ((apply_exif_orientation (some 8) img).width = img.height ∧
      (apply_exif_orientation (some 8) img).height = img.width ∧
      ∀ x y : Nat, x < img.height → y < img.width →
        pixel (apply_exif_orientation (some 8) img) x y =
          pixel img (img.width - 1 - y) x) ∧
    (∀ o : Nat, o = 0 ∨ 9 ≤ o → apply_exif_orientation (some o) img = img) ∧
    (∀ (rawExt : String) (heicDecode genericDecode : Except String Img)
        (orientation : Option Nat),
      rawExt.toLower = "heic" ∨ rawExt.toLower = "heif" →
      load_image rawExt heicDecode genericDecode orientation = heicDecode) ∧
    (∀ (rawExt : String) (heicDecode genericDecode : Except String Img)
        (orientation : Option Nat),
      ¬ (rawExt.toLower = "heic" ∨ rawExt.toLower = "heif") →
      load_image rawExt heicDecode genericDecode orientation =
        genericDecode.map (apply_exif_orientation orientation)) := by
  refine ⟨rfl, rfl, ⟨rfl, rfl, ?_⟩, ⟨rfl, rfl, ?_⟩, ⟨rfl, rfl, ?_⟩, ⟨rfl, rfl, ?_⟩,
    ⟨rfl, rfl, ?_⟩, ⟨rfl, rfl, ?_⟩, ⟨rfl, rfl, ?_⟩, ?_, ?_, ?_⟩
  · intro x y hx hy
    exact pixel_mkImg img.width img.height _ x y hx hy
  · intro x y hx hy
    exact pixel_mkImg img.width img.height _ x y hx hy
  · intro x y hx hy
    exact pixel_mkImg img.width img.height _ x y hx hy
  · intro x y hx hy
    have h1 : pixel (fliph (rotate90 img)) x y =
        pixel (rotate90 img) (img.height - 1 - x) y :=
      pixel_mkImg img.height img.width _ x y hx hy
    have h2 : pixel (rotate90 img) (img.height - 1 - x) y =
        pixel img y (img.height - 1 - (img.height - 1 - x)) :=
      pixel_mkImg img.height img.width _ _ _ (by omega) hy
    have h3 : img.height - 1 - (img.height - 1 - x) = x := by omega
    show pixel (fliph (rotate90 img)) x y = pixel img y x
    rw [h1, h2, h3]
  · intro x y hx hy
    exact pixel_mkImg img.height img.width _ x y hx hy
  · intro x y hx hy
    have h1 : pixel (fliph (rotate270 img)) x y =
        pixel (rotate270 img) (img.height - 1 - x) y :=
      pixel_mkImg img.height img.width _ x y hx hy
    have h2 : pixel (rotate270 img) (img.height - 1 - x) y =
        pixel img (img.width - 1 - y) (img.height - 1 - x) :=
      pixel_mkImg img.height img.width _ _ _ (by omega) hy
    show pixel (fliph (rotate270 img)) x y =
      pixel img (img.width - 1 - y) (img.height - 1 - x)
    rw [h1, h2]
  · intro x y hx hy
    exact pixel_mkImg img.height img.width _ x y hx hy
  · intro o ho
    rcases ho with rfl | h9
    · rfl
    · obtain ⟨k, rfl⟩ := Nat.exists_eq_add_of_le' h9
      rfl
  · intro rawExt heicDecode genericDecode orientation hext
    simp only [load_image]
    rw [if_pos hext]
  · intro rawExt heicDecode genericDecode orientation hext
    simp only [load_image]
    rw [if_neg hext]

/-- C7 witness: on a concrete 2×2 buffer, tag 6 (rotate 90 clockwise)
sends the bottom-left source pixel to the top-left of the result. -/
theorem apply_exif_orientation_spec_witness :
    pixel (apply_exif_orientation (some 6) (Img.mk 2 2 [[1, 2], [3, 4]])) 0 0 =
      pixel (Img.mk 2 2 [[1, 2], [3, 4]]) 0 1 :=
  ((apply_exif_orientation_spec (Img.mk 2 2 [[1, 2], [3, 4]])).2.2.2.2.2.2.1).2.2
    0 0 (by decide) (by decide)
